import Mathlib

set_option maxHeartbeats 1000000

/-!
Shallow embedding of the hadoop-galaxy repository
(`hadoop_galaxy/__init__.py` and `hadoop_galaxy/make_pathset.py`).

External capabilities (pydoop.hdfs, subprocess, the process environment and
the local filesystem) are modelled as explicit oracle parameters.  Python
exceptions become an error type threaded through `Except`.  Python string and
`os.path` operations used by the code are embedded below, following the
CPython 2.7 implementations of `posixpath` and `urlparse`.
-/

/-- The Python exception classes that the embedded code can raise.
`valueError` covers `ValueError` (spec: InvalidUri), `runtimeError` covers
`RuntimeError` (spec: InvalidPath / ConfigurationError / CardinalityError),
`systemExit` covers `sys.exit(n)`. -/
inductive PyErr where
  | valueError : PyErr
  | runtimeError : PyErr
  | ioError : PyErr
  | osError : PyErr
  | executableNotFound : PyErr
  | calledProcessError : Int → PyErr
  | systemExit : Nat → PyErr
deriving DecidableEq, Repr

/-- Python `str.split(sep)` for a one-character separator: splits at every
occurrence, keeping empty pieces; the empty string yields one empty piece. -/
def splitCharL (sep : Char) : List Char → List (List Char)
  | [] => [[]]
  | c :: rest =>
    match splitCharL sep rest with
    | [] => [[]]
    | grp :: grps => if c = sep then [] :: grp :: grps else (c :: grp) :: grps

/-- Python `str.rstrip(x)` for a single strip character. -/
def rstripCharL (x : Char) (l : List Char) : List Char :=
  (l.reverse.dropWhile (fun c => c == x)).reverse

/-- `posixpath.join` restricted to two arguments, as used by the code. -/
def joinL (a b : List Char) : List Char :=
  if b.head? = some '/' then b
  else if a.isEmpty ∨ a.getLast? = some '/' then a ++ b
  else a ++ '/' :: b

/-- `posixpath.basename`: everything after the last slash. -/
def basenameL (p : List Char) : List Char :=
  (p.reverse.takeWhile (fun c => c != '/')).reverse

/-- `posixpath.dirname`: everything before the last slash, with trailing
slashes stripped unless the head is all slashes. -/
def dirnameL (p : List Char) : List Char :=
  let tl := (p.reverse.takeWhile (fun c => c != '/')).reverse
  let hd := p.take (p.length - tl.length)
  if hd.isEmpty ∨ hd.all (fun c => c == '/') then hd else rstripCharL '/' hd

/-- One step of the `posixpath.normpath` component loop; `acc` holds the
accumulated components in reverse order. -/
def normStep (initialSlashes : Nat) (acc : List (List Char)) (comp : List Char) :
    List (List Char) :=
  if comp = [] ∨ comp = ['.'] then acc
  else if comp ≠ ['.', '.'] ∨ (initialSlashes = 0 ∧ acc = []) ∨ acc.head? = some ['.', '.'] then
    comp :: acc
  else acc.tail

/-- Python `path or dot`: the dot when the string is empty. -/
def orDot (l : List Char) : List Char :=
  if l.isEmpty then ['.'] else l

/-- `posixpath.normpath`: collapse slashes and dots; one or two leading
slashes are preserved, three or more become one. -/
def normpathL (p : List Char) : List Char :=
  if p.isEmpty then ['.']
  else
    let initialSlashes : Nat :=
      if p.take 2 = ['/', '/'] ∧ p.take 3 ≠ ['/', '/', '/'] then 2
      else if p.head? = some '/' then 1 else 0
    let comps := (splitCharL '/' p).foldl (normStep initialSlashes) []
    orDot (List.replicate initialSlashes '/' ++ List.intercalate ['/'] comps.reverse)

/-- `posixpath.abspath`, with the process working directory passed
explicitly (the code reads it ambiently via `os.getcwd`). -/
def abspathL (cwd p : List Char) : List Char :=
  if p.head? = some '/' then normpathL p else normpathL (joinL cwd p)

def pyJoin (a b : String) : String := String.mk (joinL a.toList b.toList)

def pyBasename (p : String) : String := String.mk (basenameL p.toList)

def pyDirname (p : String) : String := String.mk (dirnameL p.toList)

def pyAbspath (cwd p : String) : String := String.mk (abspathL cwd.toList p.toList)

/-- Python `str.startswith`. -/
def pyStartsWith (s pre : String) : Bool :=
  s.toList.take pre.toList.length == pre.toList

/-- The characters Python 2.7 `urlparse` allows in a URL scheme. -/
def schemeChar (c : Char) : Bool :=
  c.isAlpha || c.isDigit || c == '+' || c == '-' || c == '.'

/-- `urlparse.uses_params` from CPython 2.7 (schemes whose last path segment
is split at a semicolon into path and params). -/
def usesParams : List (List Char) :=
  ["ftp", "hdl", "prospero", "http", "imap", "https", "shttp", "rtsp",
   "rtspu", "sip", "sips", "mms", "", "sftp", "tel"].map String.toList

/-- `urlparse._splitnetloc`: the netloc runs up to the first of the three
delimiter characters. -/
def splitnetlocL (url : List Char) : List Char × List Char :=
  let nl := url.takeWhile (fun c => c != '/' && c != '?' && c != '#')
  (nl, url.drop nl.length)

/-- `urlparse.urlsplit` restricted to the (scheme, netloc, path) projection
used by the code; query and fragment are split off and dropped.  The
unbalanced-bracket check raises `ValueError` as in CPython. -/
def urlsplitL (url : List Char) : Except PyErr (List Char × List Char × List Char) :=
  let pre := url.takeWhile (fun c => c != ':')
  let schemeRest : List Char × List Char :=
    if pre.length < url.length ∧ 0 < pre.length ∧ pre.all schemeChar ∧
        (url.drop (pre.length + 1) = [] ∨ (url.drop (pre.length + 1)).any (fun c => !c.isDigit)) then
      (pre.map Char.toLower, url.drop (pre.length + 1))
    else ([], url)
  let scheme := schemeRest.1
  let rest := schemeRest.2
  let netlocRest : List Char × List Char :=
    if rest.take 2 = ['/', '/'] then splitnetlocL (rest.drop 2)
    else ([], rest)
  let netloc := netlocRest.1
  let rest2 := netlocRest.2
  if (netloc.contains '[' ∧ ¬ netloc.contains ']') ∨
      (netloc.contains ']' ∧ ¬ netloc.contains '[') then
    .error .valueError
  else
    .ok (scheme, netloc, (rest2.takeWhile (fun c => c != '#')).takeWhile (fun c => c != '?'))

/-- `urlparse._splitparams`, returning only the path part: the last path
segment is truncated at its first semicolon. -/
def splitparamsL (url : List Char) : List Char :=
  if url.contains '/' then
    let tl := (url.reverse.takeWhile (fun c => c != '/')).reverse
    if tl.contains ';' then
      url.take (url.length - tl.length) ++ tl.takeWhile (fun c => c != ';')
    else url
  else url.takeWhile (fun c => c != ';')

/-- The (scheme, netloc, path) projection of a parsed URL. -/
structure ParseTriple where
  scheme : String
  netloc : String
  path : String
deriving DecidableEq, Repr

/-- `urlparse.urlparse` restricted to the fields the code reads
(`.scheme`, `.netloc`, `.path`). -/
def pyUrlparse (url : String) : Except PyErr ParseTriple :=
  match urlsplitL url.toList with
  | .error e => .error e
  | .ok (scheme, netloc, path) =>
    if usesParams.contains scheme ∧ path.contains ';' then
      .ok ⟨String.mk scheme, String.mk netloc, String.mk (splitparamsL path)⟩
    else
      .ok ⟨String.mk scheme, String.mk netloc, String.mk path⟩

/-- `make_pathset.Uri`: the validated (scheme, netloc, path) triple. -/
structure Uri where
  scheme : String
  netloc : String
  path : String
deriving DecidableEq, Repr

/-- `Uri.__init__` for the three-field form: validation per the source.
Note the second check only fires for a non-empty path (`self.path and ...`). -/
def mkUri (scheme netloc path : String) : Except PyErr Uri :=
  if scheme = "file" ∧ netloc ≠ "" then .error .valueError
  else if scheme = "file" ∧ path ≠ "" ∧ ¬ pyStartsWith path "/" then .error .valueError
  else if netloc ≠ "" ∧ scheme = "" then .error .valueError
  else .ok ⟨scheme, netloc, path⟩

/-- `Uri(urlparse.urlparse(...))`: the copy form reads the same three
fields from the parse result and runs the same validation. -/
def uriFromParse (t : ParseTriple) : Except PyErr Uri :=
  mkUri t.scheme t.netloc t.path

/-- `Uri.geturl`. -/
def Uri.geturl (u : Uri) : String :=
  if u.scheme ≠ "" then u.scheme ++ "://" ++ u.netloc ++ u.path else u.path

/-- `make_pathset.resolve_datapath`, with the working directory (for
`os.path.abspath`) and pydoop's `phdfs.path.abspath` passed as explicit
parameters. -/
def resolve_datapath (cwd : String) (hdfsAbspath : String → String)
    (mode : String) (datapath : String) : Except PyErr Uri :=
  match pyUrlparse datapath with
  | .error e => .error e
  | .ok t =>
    match uriFromParse t with
    | .error e => .error e
    | .ok u =>
      if u.path = "" then .error .runtimeError
      else if mode = "default" ∧ u.scheme = "" then
        match pyUrlparse (hdfsAbspath u.path) with
        | .error e => .error e
        | .ok t2 => uriFromParse t2
      else if mode = "local" then
        if u.scheme ≠ "" ∧ u.scheme ≠ "file" then .error .runtimeError
        else .ok ⟨"file", "", pyAbspath cwd datapath⟩
      else .ok u

/-- The pydoop/HDFS capabilities consulted by `expand_paths`:
`phdfs.path.exists`, and the `hadoop dfs -ls` subprocess (returning its
standard output, or `CalledProcessError` on a non-zero exit). -/
structure HdfsFs where
  pathExists : String → Bool
  dfsLs : String → Except PyErr String

/-- Python `ls_line[(ls_line.rindex(' ') + 1):]`: the trailing token after
the last space; `str.rindex` raises `ValueError` when there is no space. -/
def afterLastSpace (l : List Char) : Except PyErr (List Char) :=
  if l.contains ' ' then .ok (l.reverse.takeWhile (fun c => c != ' ')).reverse
  else .error .valueError

/-- The nested `process` function of `expand_paths`: extract the trailing
path token, parse it, rebuild a Uri, overwrite its scheme/netloc with the
input URI's (plain attribute assignment, no re-validation), and render it. -/
def lsProcess (datapath_uri : Uri) (ls_line : String) : Except PyErr String :=
  match afterLastSpace ls_line.toList with
  | .error e => .error e
  | .ok pl =>
    match pyUrlparse (String.mk pl) with
    | .error e => .error e
    | .ok t =>
      match uriFromParse t with
      | .error e => .error e
      | .ok url =>
        .ok (Uri.geturl { url with scheme := datapath_uri.scheme, netloc := datapath_uri.netloc })

/-- Python's `map` over a list with exception propagation: stops at the
first raised exception. -/
def exceptMapM (f : String → Except PyErr String) : List String → Except PyErr (List String)
  | [] => .ok []
  | x :: xs =>
    match f x with
    | .error e => .error e
    | .ok y =>
      match exceptMapM f xs with
      | .error e => .error e
      | .ok ys => .ok (y :: ys)

/-- `check_output(...).rstrip(newline).split(newline)`: the line list the
code builds from the listing's standard output. -/
def linesOf (out : String) : List String :=
  (splitCharL '\n' (rstripCharL '\n' out.toList)).map String.mk

/-- `make_pathset.expand_paths`.  The existing-path fast path returns the
rendered URL; otherwise the `hadoop dfs -ls` output is split into lines, the
first line is dropped (`[1:]`), and each remaining line goes through
`process`.  A `CalledProcessError` from the listing becomes `sys.exit(1)`;
any other subprocess error propagates. -/
def expand_paths (fs : HdfsFs) (datapath_uri : Uri) : Except PyErr (List String) :=
  if fs.pathExists datapath_uri.geturl then .ok [datapath_uri.geturl]
  else
    match fs.dfsLs datapath_uri.geturl with
    | .error (.calledProcessError _) => .error (.systemExit 1)
    | .error e => .error e
    | .ok out => exceptMapM (lsProcess datapath_uri) (linesOf out).tail

/-- Modelled from the spec: the `hadoop_galaxy.pathset` module is not under
`src/`.  Per §3 a Pathset is an ordered sequence of URI entries (held here
as their canonical strings, which is how the runner consumes them) plus an
optional free-form data-type tag. -/
structure Pathset where
  entries : List String
  datatype : Option String
deriving DecidableEq, Repr

/-- Modelled from the spec: `Pathset.write` (§3 serialization contract) —
an optional leading metadata line, then one entry per line. -/
def pathsetWrite (p : Pathset) : String :=
  (match p.datatype with
   | some t => "#datatype: " ++ t ++ "\n"
   | none => "") ++ String.intercalate "\n" p.entries ++ "\n"

/-- Modelled from the spec: `FilePathset.from_file` (§3) — blank lines and
comment lines starting with a hash mark are ignored; a metadata line sets
the data-type tag. -/
def pathsetFromFile (content : String) : Pathset :=
  let ls := linesOf content
  { entries := ls.filter (fun l => l != "" && !(pyStartsWith l "#")),
    datatype :=
      (ls.filterMap (fun l => if pyStartsWith l "#datatype: " then some (l.drop 11) else none)).head? }

/-- `HadoopToolRunner`'s mutable fields.  `executable` is the constructor
argument (`None` possible), `input_params`/`output_str` start as `None`. -/
structure HadoopToolRunner where
  executable : Option String
  input_params : Option (List String)
  output_str : Option String
  generic_opts : List String
deriving DecidableEq, Repr

/-- `HadoopToolRunner.set_input`: stores the pathset's paths. -/
def HadoopToolRunner.set_input (r : HadoopToolRunner) (pset : Pathset) : HadoopToolRunner :=
  { r with input_params := some pset.entries }

/-- `HadoopToolRunner.set_output`: `len(pset) != 1` raises `RuntimeError`
(the spec's CardinalityError); otherwise `iter(pset).next()` — the first
(only) entry — becomes the output path. -/
def HadoopToolRunner.set_output (r : HadoopToolRunner) (pset : Pathset) :
    Except PyErr HadoopToolRunner :=
  if pset.entries.length = 1 then .ok { r with output_str := pset.entries.head? }
  else .error .runtimeError

/-- Association-list lookup for the modelled process environment
(`environ.get(k)`). -/
def envGet (e : List (String × String)) (k : String) : Option String :=
  (e.find? (fun kv => kv.1 == k)).map (fun kv => kv.2)

/-- `env[k] = v` on the modelled environment. -/
def envSet (e : List (String × String)) (k v : String) : List (String × String) :=
  if (e.find? (fun kv => kv.1 == k)).isSome then
    e.map (fun kv => if kv.1 == k then (kv.1, v) else kv)
  else e ++ [(k, v)]

/-- Modelled from the spec: `hadoop_galaxy.utils.get_abs_executable_path` is
not under `src/`.  Per §4.4 the executable is resolved to an absolute path
by searching the PATH entry of the explicitly given environment, failing
when unresolved and not already absolute.  `isFile` is the filesystem
oracle used for the search. -/
def get_abs_executable_path (isFile : String → Bool) (executable : String)
    (env : List (String × String)) : Except PyErr String :=
  if pyStartsWith executable "/" then .ok executable
  else
    let dirs := (splitCharL ':' ((envGet env "PATH").getD "").toList).map String.mk
    match dirs.find? (fun d => isFile (pyJoin d executable)) with
    | some d => .ok (pyJoin d executable)
    | none => .error .executableNotFound

/-- `HadoopToolRunner.command`: verifies executable, input and output are
set (RuntimeError — the spec's ConfigurationError — otherwise), resolves
the executable against the given environment's PATH, and returns
`[full_path] + generic_opts + input_params + [output_str]`. -/
def HadoopToolRunner.command (r : HadoopToolRunner) (isFile : String → Bool)
    (env : List (String × String)) : Except PyErr (List String) :=
  match r.executable with
  | none => .error .runtimeError
  | some exe =>
    match r.input_params with
    | none => .error .runtimeError
    | some inp =>
      match r.output_str with
      | none => .error .runtimeError
      | some outp =>
        match get_abs_executable_path isFile exe env with
        | .error e => .error e
        | .ok full => .ok ([full] ++ r.generic_opts ++ inp ++ [outp])

/-- The external capabilities consulted by `HadoopToolRunner.execute`:
`phdfs.rmr`, `phdfs.path.exists`, `phdfs.mkdir` and `subprocess.check_call`,
plus the PATH-search oracle used by `command`. -/
structure ExecWorld where
  isFile : String → Bool
  rmr : String → Except PyErr Unit
  hdfsExists : String → Bool
  mkdir : String → Except PyErr Unit
  checkCall : List String → Except PyErr Unit

/-- The tail of `HadoopToolRunner.execute` after the best-effort removal:
ensure the output path's parent directory exists (creating it when
missing), then launch the built command. -/
def executeAfterRm (w : ExecWorld) (outp : String) (cmd : List String) : Except PyErr Unit :=
  if w.hdfsExists (pyDirname outp) then w.checkCall cmd
  else
    match w.mkdir (pyDirname outp) with
    | .error e => .error e
    | .ok _ => w.checkCall cmd

/-- `HadoopToolRunner.execute`: build the command, best-effort remove the
output path (an `IOError` is only logged), create the output path's parent
directory when missing, then run the command. -/
def HadoopToolRunner.execute (r : HadoopToolRunner) (w : ExecWorld)
    (env : List (String × String)) : Except PyErr Unit :=
  match r.command w.isFile env with
  | .error e => .error e
  | .ok cmd =>
    match w.rmr (r.output_str.getD "") with
    | .error .ioError => executeAfterRm w (r.output_str.getD "") cmd
    | .error e => .error e
    | .ok _ => executeAfterRm w (r.output_str.getD "") cmd

/-- `HADOOP_GALAXY_DATA_DIR`. -/
def EnvOutputDataDir : String := "HADOOP_GALAXY_DATA_DIR"

/-- `HADOOP_GALAXY_CONF`. -/
def EnvConfPath : String := "HADOOP_GALAXY_CONF"

/-- `HadoopGalaxy.HadoopOutputDirName`. -/
def HadoopOutputDirName : String := "hadoop_output"

/-- The argparse options consumed by `HadoopGalaxy` (an absent option is
`none`; argparse never produces `none` for the required `input`/`output`). -/
structure Options where
  input : String
  output : String
  output_data_dir : Option String
  conf : Option String
  remaining_args : List String
deriving DecidableEq, Repr

/-- Python truthiness of an optional string: `None` and the empty string
are falsy. -/
def optTruthy : Option String → Bool
  | none => false
  | some s => s != ""

/-- Python `a or b` on optional strings: `b` when `a` is falsy. -/
def pyOrStr (a b : Option String) : Option String :=
  if optTruthy a then a else b

/-- The recognized keys of the YAML configuration mapping (§6): the two
Hadoop directory keys plus the `tool_env` string-to-string mapping.
`has_key` presence is modelled by `Option`. -/
structure HgConf where
  hadoop_home : Option String
  hadoop_conf_dir : Option String
  tool_env : List (String × String)
deriving DecidableEq, Repr

/-- `HadoopGalaxy._set_hadoop_conf`: copy `HADOOP_HOME` / `HADOOP_CONF_DIR`
from the configuration into the command environment when present. -/
def set_hadoop_conf (conf : HgConf) (env : List (String × String)) :
    List (String × String) :=
  let e1 := match conf.hadoop_home with
    | some v => envSet env "HADOOP_HOME" v
    | none => env
  match conf.hadoop_conf_dir with
  | some v => envSet e1 "HADOOP_CONF_DIR" v
  | none => e1

/-- The ambient world `HadoopGalaxy.run` interacts with: the inherited
process environment, the local filesystem as a content map (`open` on a
missing file raises `IOError`; `open(..., w)` plus `write` replaces the
content), the YAML parser applied to a configuration file's content, and
the execution capabilities. -/
structure RunWorld where
  environ : List (String × String)
  files : String → Option String
  parseYaml : String → Except PyErr HgConf
  execW : ExecWorld

/-- `HadoopGalaxy._configure_for_job`: copy the process environment, load
the optional YAML configuration (`--conf` flag, else the environment
variable; an unreadable file is `sys.exit(1)`, a parse error propagates),
copy the Hadoop keys into the command environment, hand the remainder
arguments to the runner, and apply the `tool_env` overrides. -/
def configure_for_job (w : RunWorld) (runner : HadoopToolRunner) (options : Options) :
    Except PyErr (List (String × String) × HadoopToolRunner) :=
  let conf_file := pyOrStr options.conf (envGet w.environ EnvConfPath)
  let confResult : Except PyErr HgConf :=
    if optTruthy conf_file then
      match w.files (conf_file.getD "") with
      | none => .error (.systemExit 1)
      | some content => w.parseYaml content
    else .ok ⟨none, none, []⟩
  match confResult with
  | .error e => .error e
  | .ok conf =>
    let cmd_env := set_hadoop_conf conf w.environ
    let runner1 :=
      if options.remaining_args ≠ [] then { runner with generic_opts := options.remaining_args }
      else runner
    let cmd_env := conf.tool_env.foldl (fun e kv => envSet e kv.1 kv.2) cmd_env
    .ok (cmd_env, runner1)

/-- `HadoopGalaxy.gen_data_output_path`: the job-data output directory.
Suffix: the `name` argument when truthy, else the declared output pathset
file's base name.  Base: the `--output-data-dir` option when truthy, else
the `HADOOP_GALAXY_DATA_DIR` environment variable when truthy, else the
`hadoop_output` directory next to the declared output pathset file. -/
def gen_data_output_path (environ : List (String × String)) (options : Options)
    (name : Option String) : String :=
  let suffix_path := if optTruthy name then name.getD "" else pyBasename options.output
  let datapath :=
    if optTruthy options.output_data_dir then options.output_data_dir.getD ""
    else if optTruthy (envGet environ EnvOutputDataDir) then (envGet environ EnvOutputDataDir).getD ""
    else pyJoin (pyDirname options.output) HadoopOutputDirName
  pyJoin datapath suffix_path

/-- `HadoopGalaxy.run`: configure, load the input pathset, build the
singleton output pathset, `set_input` / `set_output` / `execute`, and only
then serialize the output pathset to `options.output`.  The result is the
final local-filesystem content map together with the run's outcome; the
`except` clauses re-raise (`CalledProcessError` as a fresh `RuntimeError`,
`OSError` as itself), so every failure leaves the file map unchanged. -/
def HadoopGalaxy.run (w : RunWorld) (runner : HadoopToolRunner) (options : Options) :
    (String → Option String) × Except PyErr Unit :=
  match configure_for_job w runner options with
  | .error e => (w.files, .error e)
  | .ok (cmd_env, runner1) =>
    match w.files options.input with
    | none => (w.files, .error .ioError)
    | some content =>
      let input_pathset := pathsetFromFile content
      let output_pathset : Pathset :=
        { entries := [gen_data_output_path w.environ options none], datatype := none }
      let runner2 := runner1.set_input input_pathset
      match runner2.set_output output_pathset with
      | .error e => (w.files, .error e)
      | .ok runner3 =>
        match runner3.execute w.execW cmd_env with
        | .error (.calledProcessError _) => (w.files, .error .runtimeError)
        | .error e => (w.files, .error e)
        | .ok _ =>
          (fun p => if p = options.output then some (pathsetWrite output_pathset) else w.files p,
           .ok ())

/-- A successful `Uri` construction returns exactly the given triple. -/
theorem mkUri_ok_eq (s n p : String) (u : Uri) (h : mkUri s n p = .ok u) :
    u = ⟨s, n, p⟩ := by
  unfold mkUri at h
  split at h
  · exact absurd h (by simp)
  · split at h
    · exact absurd h (by simp)
    · split at h
      · exact absurd h (by simp)
      · injection h with h2
        exact h2.symm

/-- Python `path or dot` is never empty. -/
theorem orDot_ne_nil (l : List Char) : orDot l ≠ [] := by
  unfold orDot
  split
  · simp
  · next h =>
    intro hc
    rw [hc] at h
    exact h rfl

/-- `posixpath.normpath` never returns the empty string. -/
theorem normpathL_ne_nil (p : List Char) : normpathL p ≠ [] := by
  unfold normpathL
  split
  · simp
  · exact orDot_ne_nil _

/-- `posixpath.abspath` never returns the empty string. -/
theorem pyAbspath_ne_empty (cwd p : String) : pyAbspath cwd p ≠ "" := by
  unfold pyAbspath
  intro hc
  have h2 : abspathL cwd.toList p.toList = [] := congrArg String.data hc
  unfold abspathL at h2
  split at h2 <;> exact normpathL_ne_nil _ h2

/-- C2: `set_output` fails (the spec's CardinalityError, a `RuntimeError` in
the code) whenever the output pathset has 0 or 2+ entries, and with exactly
one entry it succeeds and stores that entry's path string as the output
path. -/
theorem set_output_cardinality (r : HadoopToolRunner) (pset : Pathset) :
    (pset.entries.length ≠ 1 → r.set_output pset = .error .runtimeError) ∧
    (∀ x, pset.entries = [x] →
      r.set_output pset = .ok { r with output_str := some x }) := by
  constructor
  · intro h
    simp [HadoopToolRunner.set_output, h]
  · intro x hx
    simp [HadoopToolRunner.set_output, hx]

theorem set_output_cardinality_witness :
    HadoopToolRunner.set_output ⟨some "t", none, none, []⟩ ⟨[], none⟩ = .error .runtimeError ∧
    HadoopToolRunner.set_output ⟨some "t", none, none, []⟩ ⟨["a", "b"], none⟩ = .error .runtimeError ∧
    HadoopToolRunner.set_output ⟨some "t", none, none, []⟩ ⟨["a"], none⟩ =
      .ok ⟨some "t", none, some "a", []⟩ :=
  ⟨(set_output_cardinality _ _).1 (by decide),
   (set_output_cardinality _ _).1 (by decide),
   (set_output_cardinality _ _).2 "a" rfl⟩

/-- The output-directory policy as the spec words it: base = explicit option
when given, else environment override when set, else the fixed-name
subdirectory next to the declared output pathset file; result = base joined
with the explicit name when given, else the output file's base name. -/
def specOutputDir (opt envOverride : Option String) (declaredOutput : String)
    (name : Option String) : String :=
  let base :=
    if optTruthy opt then opt.getD ""
    else if optTruthy envOverride then envOverride.getD ""
    else pyJoin (pyDirname declaredOutput) "hadoop_output"
  pyJoin base (if optTruthy name then name.getD "" else pyBasename declaredOutput)

/-- C3: `gen_data_output_path` chooses its base directory with the
precedence explicit option, then environment override, then the
`hadoop_output` subdirectory next to the declared output-pathset file, and
joins it with the explicit name if given, else the output file's base name;
in particular option `/x`, override `/y` and declared output
`/d/out.pathset` give `/x/out.pathset`. -/
theorem gen_data_output_path_spec :
    (∀ (environ : List (String × String)) (options : Options) (name : Option String),
      gen_data_output_path environ options name =
        specOutputDir options.output_data_dir (envGet environ EnvOutputDataDir)
          options.output name) ∧
    gen_data_output_path [(EnvOutputDataDir, "/y")]
      ⟨"/d/in.pathset", "/d/out.pathset", some "/x", none, []⟩ none = "/x/out.pathset" := by
  constructor
  · intro environ options name
    rfl
  · rfl

/-- C5 counterexample: the constructor accepts scheme `file` with the empty
path, which is not root-anchored — the claim says any non-root-anchored
path with the `file` scheme is always rejected. -/
theorem uri_empty_path_accepted :
    ¬ pyStartsWith "" "/" ∧ mkUri "file" "" "" = .ok ⟨"file", "", ""⟩ := by
  exact ⟨by decide, rfl⟩

/-- C5 amended: construction fails exactly when the `file` scheme comes
with a non-empty host, the `file` scheme comes with a non-empty
non-root-anchored path, or a non-empty host comes with an empty scheme; an
empty path is accepted by the constructor (it is rejected later, at path
resolution).  A successful construction returns the triple unchanged, and
the embedded constructor is a pure function (no filesystem or network
access). -/
theorem mkUri_invariants (scheme netloc path : String) :
    ((∃ e, mkUri scheme netloc path = .error e) ↔
      (scheme = "file" ∧ netloc ≠ "") ∨
      (scheme = "file" ∧ path ≠ "" ∧ ¬ pyStartsWith path "/") ∨
      (netloc ≠ "" ∧ scheme = "")) ∧
    (∀ u, mkUri scheme netloc path = .ok u → u = ⟨scheme, netloc, path⟩) := by
  constructor
  · constructor
    · intro he
      obtain ⟨e, he⟩ := he
      by_cases h1 : scheme = "file" ∧ netloc ≠ ""
      · exact Or.inl h1
      · by_cases h2 : scheme = "file" ∧ path ≠ "" ∧ ¬ pyStartsWith path "/"
        · exact Or.inr (Or.inl h2)
        · by_cases h3 : netloc ≠ "" ∧ scheme = ""
          · exact Or.inr (Or.inr h3)
          · unfold mkUri at he
            rw [if_neg h1, if_neg h2, if_neg h3] at he
            exact absurd he (by simp)
    · intro h
      unfold mkUri
      by_cases h1 : scheme = "file" ∧ netloc ≠ ""
      · rw [if_pos h1]; exact ⟨.valueError, rfl⟩
      · rw [if_neg h1]
        by_cases h2 : scheme = "file" ∧ path ≠ "" ∧ ¬ pyStartsWith path "/"
        · rw [if_pos h2]; exact ⟨.valueError, rfl⟩
        · rw [if_neg h2]
          rcases h with h | h | h
          · exact absurd h h1
          · exact absurd h h2
          · rw [if_pos h]; exact ⟨.valueError, rfl⟩
  · intro u h
    exact mkUri_ok_eq _ _ _ _ h

theorem mkUri_invariants_witness :
    (∃ e, mkUri "file" "h" "/p" = .error e) ∧ ((⟨"", "", "/p"⟩ : Uri) = ⟨"", "", "/p"⟩) :=
  ⟨(mkUri_invariants "file" "h" "/p").1.mpr (Or.inl ⟨rfl, by decide⟩),
   (mkUri_invariants "" "" "/p").2 ⟨"", "", "/p"⟩ rfl⟩

/-- C7: when the URI already names an existing filesystem object, `expand`
returns exactly the singleton of that URI (in its canonical string form),
and the result does not depend on the listing capability — no pattern
listing is performed. -/
theorem expand_paths_existing_singleton (ex : String → Bool)
    (ls1 ls2 : String → Except PyErr String) (u : Uri)
    (hex : ex u.geturl = true) :
    expand_paths ⟨ex, ls1⟩ u = .ok [u.geturl] ∧
    expand_paths ⟨ex, ls1⟩ u = expand_paths ⟨ex, ls2⟩ u := by
  unfold expand_paths
  simp [hex]

theorem expand_paths_existing_singleton_witness :
    expand_paths ⟨fun _ => true, fun _ => .error .osError⟩ ⟨"hdfs", "nn", "/a"⟩ =
      .ok ["hdfs://nn/a"] :=
  (expand_paths_existing_singleton (fun _ => true) (fun _ => .error .osError)
    (fun _ => .ok "zzz") ⟨"hdfs", "nn", "/a"⟩ rfl).1

/-- C10: in the listing fallback the first line of the listing output is
dropped unconditionally — the expansion result depends only on the line
list's tail, whatever the first line is — and when the listing output is a
single line that URI contributes zero entries. -/
theorem expand_paths_drops_first_line (ex : String → Bool)
    (ls1 ls2 : String → Except PyErr String) (u : Uri) (out1 out2 : String)
    (hex : ex u.geturl = false)
    (h1 : ls1 u.geturl = .ok out1) (h2 : ls2 u.geturl = .ok out2)
    (htail : (linesOf out1).tail = (linesOf out2).tail) :
    expand_paths ⟨ex, ls1⟩ u = expand_paths ⟨ex, ls2⟩ u ∧
    (∀ line, linesOf out1 = [line] → expand_paths ⟨ex, ls1⟩ u = .ok []) := by
  unfold expand_paths
  simp only [hex, if_false, h1, h2]
  constructor
  · rw [htail]
  · intro line hl
    rw [hl]
    rfl

theorem expand_paths_drops_first_line_witness :
    expand_paths ⟨fun _ => false, fun _ => .ok "x /data/only"⟩ ⟨"hdfs", "nn", "/d*"⟩ =
      expand_paths ⟨fun _ => false, fun _ => .ok "Found 0 items"⟩ ⟨"hdfs", "nn", "/d*"⟩ ∧
    expand_paths ⟨fun _ => false, fun _ => .ok "x /data/only"⟩ ⟨"hdfs", "nn", "/d*"⟩ = .ok [] :=
  ⟨(expand_paths_drops_first_line (fun _ => false) (fun _ => .ok "x /data/only")
      (fun _ => .ok "Found 0 items") ⟨"hdfs", "nn", "/d*"⟩ "x /data/only" "Found 0 items"
      rfl rfl rfl rfl).1,
   (expand_paths_drops_first_line (fun _ => false) (fun _ => .ok "x /data/only")
      (fun _ => .ok "Found 0 items") ⟨"hdfs", "nn", "/d*"⟩ "x /data/only" "Found 0 items"
      rfl rfl rfl rfl).2 "x /data/only" rfl⟩

/-- C6: in the listing fallback, with a listing output of one header line
followed by two path lines (each processed successfully), `expand` returns
exactly those two rebuilt URIs, in listing order; and every value `process`
produces is the canonical form of a UriRef carrying the input URI's scheme
and host. -/
theorem expand_paths_listing_two_lines (ex : String → Bool)
    (ls : String → Except PyErr String) (u : Uri) (out hdr l1 l2 r1 r2 : String)
    (hex : ex u.geturl = false)
    (hls : ls u.geturl = .ok out)
    (hsplit : linesOf out = [hdr, l1, l2])
    (hp1 : lsProcess u l1 = .ok r1) (hp2 : lsProcess u l2 = .ok r2) :
    expand_paths ⟨ex, ls⟩ u = .ok [r1, r2] ∧
    (∀ line r, lsProcess u line = .ok r →
      ∃ p, r = Uri.geturl ⟨u.scheme, u.netloc, p⟩) := by
  constructor
  · unfold expand_paths
    simp only [hex, if_false, hls, hsplit]
    show exceptMapM (lsProcess u) [l1, l2] = .ok [r1, r2]
    unfold exceptMapM
    rw [hp1]
    unfold exceptMapM
    rw [hp2]
    rfl
  · intro line r hpr
    unfold lsProcess at hpr
    split at hpr
    · simp at hpr
    · split at hpr
      · simp at hpr
      · split at hpr
        · simp at hpr
        · simp only [Except.ok.injEq] at hpr
          exact ⟨_, hpr.symm⟩

theorem expand_paths_listing_two_lines_witness :
    expand_paths
      ⟨fun _ => false,
       fun _ => .ok "Found 2 items\n-rw 1 hdfs://nn/data/a\n-rw 1 hdfs://nn/data/b"⟩
      ⟨"hdfs", "nn", "/data/x*"⟩ = .ok ["hdfs://nn/data/a", "hdfs://nn/data/b"] ∧
    (∃ p, ("hdfs://nn/data/a" : String) = Uri.geturl ⟨"hdfs", "nn", p⟩) :=
  ⟨(expand_paths_listing_two_lines (fun _ => false)
      (fun _ => .ok "Found 2 items\n-rw 1 hdfs://nn/data/a\n-rw 1 hdfs://nn/data/b")
      ⟨"hdfs", "nn", "/data/x*"⟩
      "Found 2 items\n-rw 1 hdfs://nn/data/a\n-rw 1 hdfs://nn/data/b"
      "Found 2 items" "-rw 1 hdfs://nn/data/a" "-rw 1 hdfs://nn/data/b"
      "hdfs://nn/data/a" "hdfs://nn/data/b" rfl rfl rfl rfl rfl).1,
   (expand_paths_listing_two_lines (fun _ => false)
      (fun _ => .ok "Found 2 items\n-rw 1 hdfs://nn/data/a\n-rw 1 hdfs://nn/data/b")
      ⟨"hdfs", "nn", "/data/x*"⟩
      "Found 2 items\n-rw 1 hdfs://nn/data/a\n-rw 1 hdfs://nn/data/b"
      "Found 2 items" "-rw 1 hdfs://nn/data/a" "-rw 1 hdfs://nn/data/b"
      "hdfs://nn/data/a" "hdfs://nn/data/b" rfl rfl rfl rfl rfl).2
      "-rw 1 hdfs://nn/data/a" "hdfs://nn/data/a" rfl⟩

/-- C8: `command` fails (the spec's ConfigurationError, a `RuntimeError` in
the code) when the executable, the input paths or the output path is unset;
otherwise, when PATH resolution of the executable against the explicitly
given environment succeeds, it returns exactly
`[resolvedExecutable] ++ options ++ inputPaths ++ [outputPath]`. -/
theorem command_requires_and_builds (r : HadoopToolRunner) (isFile : String → Bool)
    (env : List (String × String)) :
    ((r.executable = none ∨ r.input_params = none ∨ r.output_str = none) →
      r.command isFile env = .error .runtimeError) ∧
    (∀ exe inp outp full, r.executable = some exe → r.input_params = some inp →
      r.output_str = some outp → get_abs_executable_path isFile exe env = .ok full →
      r.command isFile env = .ok ([full] ++ r.generic_opts ++ inp ++ [outp])) := by
  constructor
  · intro h
    unfold HadoopToolRunner.command
    rcases h with h | h | h
    · rw [h]
    · rw [h]
      cases r.executable with
      | none => rfl
      | some exe => rfl
    · rw [h]
      cases r.executable with
      | none => rfl
      | some exe =>
        cases r.input_params with
        | none => rfl
        | some inp => rfl
  · intro exe inp outp full he hi ho hf
    obtain ⟨rexe, rinp, routp, ropts⟩ := r
    dsimp only at he hi ho
    subst he
    subst hi
    subst ho
    simp [HadoopToolRunner.command, hf]

theorem command_requires_and_builds_witness :
    HadoopToolRunner.command ⟨some "tool", none, some "o", []⟩ (fun _ => true) [] =
      .error .runtimeError ∧
    HadoopToolRunner.command ⟨some "tool", some ["hdfs://nn/a"], some "hdfs://nn/o", ["-D"]⟩
      (fun s => s == "/bin/tool") [("PATH", "/usr/bin:/bin")] =
      .ok ["/bin/tool", "-D", "hdfs://nn/a", "hdfs://nn/o"] := by
  constructor
  · exact (command_requires_and_builds _ _ _).1 (Or.inr (Or.inl rfl))
  · have h := (command_requires_and_builds
      ⟨some "tool", some ["hdfs://nn/a"], some "hdfs://nn/o", ["-D"]⟩
      (fun s => s == "/bin/tool") [("PATH", "/usr/bin:/bin")]).2
      "tool" ["hdfs://nn/a"] "hdfs://nn/o" "/bin/tool" rfl rfl rfl rfl
    simpa using h

/-- C9: every `Uri` that `resolve_datapath` returns has a non-empty path.
The default-filesystem branch re-parses the string produced by the external
`phdfs.path.abspath` capability, so that capability is assumed to produce
strings whose parsed path component is non-empty (per §4.2 it returns the
canonical absolute form of the path). -/
theorem resolve_returns_nonempty_path (cwd : String) (hdfsAbspath : String → String)
    (mode : String) (raw : String) (u : Uri)
    (hfs : ∀ p t, pyUrlparse (hdfsAbspath p) = .ok t → t.path ≠ "")
    (h : resolve_datapath cwd hdfsAbspath mode raw = .ok u) :
    u.path ≠ "" := by
  unfold resolve_datapath at h
  split at h
  · simp at h
  · split at h
    · simp at h
    · next t hup u0 hu =>
      split at h
      · simp at h
      · next hpe =>
        split at h
        · split at h
          · simp at h
          · next t2 hp2 =>
            have hne2 := hfs u0.path t2 hp2
            have he := mkUri_ok_eq t2.scheme t2.netloc t2.path u h
            rw [he]
            exact hne2
        · split at h
          · split at h
            · simp at h
            · injection h with h2
              rw [← h2]
              exact pyAbspath_ne_empty cwd raw
          · injection h with h2
            rw [← h2]
            exact hpe

theorem resolve_returns_nonempty_path_witness :
    (("/w/a" : String) ≠ "") :=
  resolve_returns_nonempty_path "/w" (fun _ => "/") "local" "a" ⟨"file", "", "/w/a"⟩
    (fun p t ht => by
      change pyUrlparse "/" = Except.ok t at ht
      rw [(by rfl : pyUrlparse "/" = Except.ok (⟨"", "", "/"⟩ : ParseTriple))] at ht
      injection ht with h2
      cases h2
      decide)
    rfl

/-- C4 counterexample: for the raw input `file:///d/x` (parsed path
component `/d/x`, already absolute) with working directory `/w`, local-mode
resolution applies `os.path.abspath` to the whole raw string, returning
path `/w/file:/d/x` instead of the path component made absolute (`/d/x`). -/
theorem resolve_local_abspath_counterexample :
    pyUrlparse "file:///d/x" = .ok ⟨"file", "", "/d/x"⟩ ∧
    resolve_datapath "/w" (fun s => s) "local" "file:///d/x" =
      .ok ⟨"file", "", "/w/file:/d/x"⟩ ∧
    pyAbspath "/w" "/d/x" = "/d/x" ∧
    ("/w/file:/d/x" : String) ≠ "/d/x" :=
  ⟨rfl, rfl, rfl, by decide⟩

/-- C4 amended: for raw inputs whose parse and Uri construction succeed and
whose parsed path component is non-empty, local mode rejects with
InvalidPath (RuntimeError) exactly the parsed schemes other than `file` and
the empty scheme; otherwise it returns scheme `file`, empty host, and the
entire raw input string (not just its path component) made
operating-system-absolute against the working directory, without consulting
the remote-filesystem capability (the result holds for every `hdfsAbspath`
oracle). -/
theorem resolve_local_amended (cwd : String) (hdfsAbspath : String → String)
    (raw : String) (t : ParseTriple) (u0 : Uri)
    (hp : pyUrlparse raw = .ok t) (hu : uriFromParse t = .ok u0) (hne : t.path ≠ "") :
    (t.scheme ≠ "" ∧ t.scheme ≠ "file" →
      resolve_datapath cwd hdfsAbspath "local" raw = .error .runtimeError) ∧
    ((t.scheme = "" ∨ t.scheme = "file") →
      resolve_datapath cwd hdfsAbspath "local" raw = .ok ⟨"file", "", pyAbspath cwd raw⟩) := by
  have he := mkUri_ok_eq t.scheme t.netloc t.path u0 hu
  subst he
  suffices hbase : resolve_datapath cwd hdfsAbspath "local" raw =
      (if t.scheme ≠ "" ∧ t.scheme ≠ "file" then .error .runtimeError
       else .ok ⟨"file", "", pyAbspath cwd raw⟩) by
    constructor
    · intro hs
      rw [hbase, if_pos hs]
    · intro hs
      rw [hbase, if_neg (fun hc => match hs with
        | Or.inl h0 => hc.1 h0
        | Or.inr h0 => hc.2 h0)]
  unfold resolve_datapath
  rw [hp]
  dsimp only
  rw [hu]
  dsimp only
  rw [if_neg hne]
  rw [if_neg (fun hc => absurd hc.1 (by decide))]
  rw [if_pos rfl]

theorem resolve_local_amended_witness :
    resolve_datapath "/w" (fun s => s) "local" "hdfs://nn/a" = .error .runtimeError ∧
    resolve_datapath "/w" (fun s => s) "local" "d/x" =
      .ok ⟨"file", "", pyAbspath "/w" "d/x"⟩ :=
  ⟨(resolve_local_amended "/w" (fun s => s) "hdfs://nn/a"
      ⟨"hdfs", "nn", "/a"⟩ ⟨"hdfs", "nn", "/a"⟩ rfl rfl (by decide)).1 ⟨by decide, by decide⟩,
   (resolve_local_amended "/w" (fun s => s) "d/x"
      ⟨"", "", "d/x"⟩ ⟨"", "", "d/x"⟩ rfl rfl (by decide)).2 (Or.inl rfl)⟩

/-- C1: for every run, every environment/filesystem/execution world and
every runner, if the outcome is an error — raised during configuration,
input-pathset loading, or `execute` — the declared output-pathset file's
content is unchanged (neither created, overwritten nor truncated); and the
serialized output pathset lands at the destination only on the success
outcome, i.e. only after `execute` has returned successfully. -/
theorem run_output_atomicity (w : RunWorld) (runner : HadoopToolRunner) (options : Options) :
    (∀ e, (HadoopGalaxy.run w runner options).2 = .error e →
      (HadoopGalaxy.run w runner options).1 options.output = w.files options.output) ∧
    ((HadoopGalaxy.run w runner options).2 = .ok () →
      (HadoopGalaxy.run w runner options).1 options.output =
        some (pathsetWrite ⟨[gen_data_output_path w.environ options none], none⟩)) := by
  unfold HadoopGalaxy.run
  dsimp only
  repeat' split
  all_goals constructor
  all_goals first
    | (intro e h; rfl)
    | (intro e h; simp at h)
    | (intro h; simp at h; done)
    | (intro h; simp)

theorem run_output_atomicity_witness :
    (HadoopGalaxy.run
      ⟨[], fun _ => none, fun _ => .error .valueError,
        ⟨fun _ => false, fun _ => .ok (), fun _ => true, fun _ => .ok (), fun _ => .ok ()⟩⟩
      ⟨some "tool", none, none, []⟩ ⟨"/d/in.pathset", "/d/out.pathset", none, none, []⟩).1
      "/d/out.pathset" = none :=
  (run_output_atomicity
    ⟨[], fun _ => none, fun _ => .error .valueError,
      ⟨fun _ => false, fun _ => .ok (), fun _ => true, fun _ => .ok (), fun _ => .ok ()⟩⟩
    ⟨some "tool", none, none, []⟩ ⟨"/d/in.pathset", "/d/out.pathset", none, none, []⟩).1
    .ioError rfl
